import Mathlib

/-!
# Verification of `rootlessspawner/spawner.py` (`RootlessSpawner`)

Shallow embedding of the process-lifecycle controller in
`src/rootlessspawner/spawner.py`: the pid/handle state, `load_state` /
`get_state` / `clear_state`, `start`, `poll`, `_signal` and the
`stop` escalation state machine (SIGINT, then SIGTERM, then SIGKILL).

The operating system is modelled by an oracle (`World`): the result of
`Popen.poll()` on the owned handle at each instant, and the outcome of
`os.kill(pid, sig)` at each instant.  Time is a natural-number clock that
advances by one tick per sleep interval inside `wait_for_death`; all other
steps are instantaneous.  Fallible calls return `Except` (a Python
exception becomes `.error`); every observable action (an `os.kill` call,
the final warning log) is recorded in an event trace.
-/

namespace RootlessSpawner

/-- Signal number of SIGINT on Linux (`signal.SIGINT`). -/
def SIGINT : Nat := 2

/-- Signal number of SIGKILL on Linux (`signal.SIGKILL`). -/
def SIGKILL : Nat := 9

/-- Signal number of SIGTERM on Linux (`signal.SIGTERM`). -/
def SIGTERM : Nat := 15

/-- Outcome of an `os.kill(pid, sig)` call: success, `OSError` with
`errno == errno.ESRCH` (no such process), or an `OSError` with any other
errno `e`. -/
inductive KillOutcome
  | ok
  | esrch
  | err (e : Nat)
deriving DecidableEq, Repr

/-- The operating-system oracle.  `procPoll t` is what `Popen.poll()` on the
owned handle returns at instant `t` (`none` = still running, `some v` = exit
status `v`).  `killRes p g t` is the outcome of `os.kill(p, g)` at instant
`t`. -/
structure World where
  procPoll : Nat → Option Int
  killRes : Nat → Nat → Nat → KillOutcome

/-- The mutable attributes of a `RootlessSpawner` instance that the claims
are about: `proc` (the `Popen` handle, carrying the process id of the child
it was created for, `none` when no handle is owned), `pid` (the `pid`
trait, 0 meaning no process), `port` (the `port` trait) and the model
clock `time`. -/
structure SpawnerState where
  proc : Option Nat
  pid : Nat
  port : Nat
  time : Nat
deriving DecidableEq, Repr

/-- The three configurable timeout traits (`INTERRUPT_TIMEOUT`,
`TERM_TIMEOUT`, `KILL_TIMEOUT`), in ticks. -/
structure Config where
  INTERRUPT_TIMEOUT : Nat
  TERM_TIMEOUT : Nat
  KILL_TIMEOUT : Nat
deriving DecidableEq, Repr

/-- The default timeouts: 10, 5 and 5 seconds. -/
def defaultConfig : Config :=
  { INTERRUPT_TIMEOUT := 10, TERM_TIMEOUT := 5, KILL_TIMEOUT := 5 }

/-- Errno of a non-ESRCH `OSError` propagated out of `_signal`. -/
abbrev OSErr := Nat

/-- Observable actions: an `os.kill(p, sig)` call made at instant `time`,
and the `"Process %i never died"` warning log. -/
inductive Event
  | kill (time p sig : Nat)
  | warn (p : Nat)
deriving DecidableEq, Repr

/-- `clear_state` (spawner.py lines 72-75): zero the `pid` trait.  Note the
`proc` handle is NOT cleared. -/
def clear_state (s : SpawnerState) : SpawnerState :=
  { s with pid := 0 }

/-- `load_state` (spawner.py lines 59-63): copy `pid` in when the persisted
blob has the key.  The blob is modelled as `Option Nat` (the optional
`pid` entry). -/
def load_state (s : SpawnerState) (state : Option Nat) : SpawnerState :=
  match state with
  | some p => { s with pid := p }
  | none => s

/-- `get_state` (spawner.py lines 65-70): emit the `pid` key exactly when
`self.pid` is truthy (nonzero). -/
def get_state (s : SpawnerState) : Option Nat :=
  if s.pid ≠ 0 then some s.pid else none

/-- A freshly constructed spawner at instant `t`: no handle, `pid = 0`. -/
def fresh (t : Nat) : SpawnerState :=
  { proc := none, pid := 0, port := 0, time := t }

/-- `_signal` (spawner.py lines 136-145): `os.kill(self.pid, sig)`;
ESRCH means the process is gone (return `false`), any other `OSError`
re-raises, success returns `true`.  The kill call is recorded as an
event. -/
def _signal (w : World) (s : SpawnerState) (sig : Nat) :
    Except OSErr (Bool × List Event) :=
  match w.killRes s.pid sig s.time with
  | .ok => .ok (true, [Event.kill s.time s.pid sig])
  | .esrch => .ok (false, [Event.kill s.time s.pid sig])
  | .err e => .error e

/-- `poll` (spawner.py lines 108-134).  With an owned handle: non-blocking
`Popen.poll()`, clearing state when an exit status is seen.  Without a
handle: `pid == 0` means already stopped (clear state, return 0);
otherwise probe with signal 0 — alive gives `none`, ESRCH clears state
and returns 0, any other kill error propagates. -/
def poll (w : World) (s : SpawnerState) :
    Except OSErr (Option Int × List Event × SpawnerState) :=
  match s.proc with
  | some _ =>
    match w.procPoll s.time with
    | some status => .ok (some status, [], clear_state s)
    | none => .ok (none, [], s)
  | none =>
    if s.pid = 0 then
      .ok (some 0, [], clear_state s)
    else
      match _signal w s 0 with
      | .error e => .error e
      | .ok (true, ev) => .ok (none, ev, s)
      | .ok (false, ev) => .ok (some 0, ev, clear_state s)

/-- Advance the model clock by one sleep interval. -/
def tick (s : SpawnerState) : SpawnerState :=
  { s with time := s.time + 1 }

/-- Modelled from the spec: `wait_for_death(timeout)` of the base
`jupyterhub.spawner.Spawner` class (not part of this repository) waits up
to the tier timeout, "polling liveness at a bounded interval, for the
process to exit": it repeatedly calls `self.poll()`, returning as soon as
a poll reports an exit status, otherwise sleeping one interval, for at
most `n` intervals. -/
def wait_for_death (w : World) : SpawnerState → Nat →
    Except OSErr (List Event × SpawnerState)
  | s, 0 => .ok ([], s)
  | s, n + 1 =>
    match poll w s with
    | .error e => .error e
    | .ok (some _, ev, s') => .ok (ev, s')
    | .ok (none, ev, s') =>
      match wait_for_death w (tick s') (n) with
      | .error e => .error e
      | .ok (ev2, s'') => .ok (ev ++ ev2, s'')

/-- One escalation block of `stop` (the pattern repeated at spawner.py
lines 153-159, 162-167 and 170-175): re-check liveness via `poll` —
if an exit status is seen, `stop` returns there (`done = true`);
otherwise send the tier signal and wait out the tier timeout. -/
def tierAttempt (w : World) (sig timeout : Nat) (s : SpawnerState) :
    Except OSErr (List Event × SpawnerState × Bool) :=
  match poll w s with
  | .error e => .error e
  | .ok (some _, ev, s') => .ok (ev, s', true)
  | .ok (none, ev, s') =>
    match _signal w s' sig with
    | .error e => .error e
    | .ok (_, ev2) =>
      match wait_for_death w s' timeout with
      | .error e => .error e
      | .ok (ev3, s'') => .ok (ev ++ ev2 ++ ev3, s'', false)

/-- The part of `stop` after the interrupt tier (spawner.py lines
161-181): poll and (if still alive) send SIGTERM and wait `TERM_TIMEOUT`;
then poll and (if still alive) send SIGKILL and wait `KILL_TIMEOUT`;
finally poll once more and log the `"Process %i never died"` warning when
the process is still alive.  Each poll that reports an exit status makes
`stop` return immediately. -/
def stopTail (cfg : Config) (w : World) (s1 : SpawnerState) :
    Except OSErr (List Event × SpawnerState) :=
  match tierAttempt w SIGTERM cfg.TERM_TIMEOUT s1 with
  | .error e => .error e
  | .ok (ev2, s2, true) => .ok (ev2, s2)
  | .ok (ev2, s2, false) =>
    match tierAttempt w SIGKILL cfg.KILL_TIMEOUT s2 with
    | .error e => .error e
    | .ok (ev3, s3, true) => .ok (ev2 ++ ev3, s3)
    | .ok (ev3, s3, false) =>
      match poll w s3 with
      | .error e => .error e
      | .ok (some _, ev4, s4) => .ok (ev2 ++ ev3 ++ ev4, s4)
      | .ok (none, ev4, s4) =>
        .ok (ev2 ++ ev3 ++ ev4 ++ [Event.warn s4.pid], s4)

/-- `stop` (spawner.py lines 147-181): unless `now`, poll and (if still
alive) send SIGINT and wait `INTERRUPT_TIMEOUT` (lines 153-159); then run
the SIGTERM / SIGKILL / warning tail.  A poll that reports an exit status
makes `stop` return at that point. -/
def stop (cfg : Config) (w : World) (s0 : SpawnerState) (now : Bool) :
    Except OSErr (List Event × SpawnerState) :=
  match (if now then Except.ok ([], s0, false)
         else tierAttempt w SIGINT cfg.INTERRUPT_TIMEOUT s0) with
  | .error e => .error e
  | .ok (ev1, s1, true) => .ok (ev1, s1)
  | .ok (ev1, s1, false) =>
    match stopTail cfg w s1 with
    | .error e => .error e
    | .ok (ev2, s2) => .ok (ev1 ++ ev2, s2)

/-- Outcome of the `Popen(cmd, env=env, start_new_session=True)` call in
`start`: a new process with pid `p`, a `PermissionError`, or a
`FileNotFoundError` (the executable does not exist; NOT a subclass of
`PermissionError`, so not caught by `start`). -/
inductive PopenResult
  | ok (p : Nat)
  | permissionError
  | fileNotFoundError
deriving DecidableEq, Repr

/-- The exception propagated out of `start`. -/
inductive StartErr
  | permissionError
  | fileNotFoundError
deriving DecidableEq, Repr

/-- Log calls made by `start`: the `"Spawning ..."` info line and the
`"Permission denied trying to run %r. Does %s have access to this
file?"` error line (naming the resolved script and the user). -/
inductive StartEvent
  | logInfoSpawning (cmd : List String)
  | logPermissionDenied (script : String) (user : String)
deriving DecidableEq, Repr

/-- Environment of a `start` call: the port allocator, the `Popen`
behaviour for a command vector, `shutil.which`, `self.user.name`,
`self.ip`, and the configured `self.cmd` / `self.get_args()`. -/
structure StartWorld where
  randomPort : Nat
  popen : List String → PopenResult
  which : String → Option String
  userName : String
  ip : String
  cmd : List String
  args : List String

/-- Result of a `start` call: the returned `(host, port)` or the
propagated exception, the log events, and the spawner state after the
call. -/
structure StartOutcome where
  result : Except StartErr (String × Nat)
  events : List StartEvent
  state : SpawnerState
deriving Repr

/-- The `shutil.which(cmd[0]) or cmd[0]` path resolution in the
`PermissionError` handler of `start`. -/
def resolvedScript (w : StartWorld) : String :=
  ((w.which ((w.cmd ++ w.args).headD "")).getD ((w.cmd ++ w.args).headD ""))

/-- `start` (spawner.py lines 82-106): pick a random port, build
`cmd = self.cmd + self.get_args()`, log, `Popen` with
`start_new_session=True`.  On success record the handle and its pid and
return `(self.ip or '127.0.0.1', self.port)`.  On `PermissionError`,
resolve the script with `shutil.which`, log the diagnostic naming the
script and the user, and re-raise.  Any other exception (e.g.
`FileNotFoundError`) propagates uncaught. -/
def start (w : StartWorld) (s0 : SpawnerState) : StartOutcome :=
  let s := { s0 with port := w.randomPort }
  let cmd := w.cmd ++ w.args
  match w.popen cmd with
  | .ok newPid =>
    { result := .ok ((if w.ip = "" then "127.0.0.1" else w.ip), w.randomPort)
      events := [StartEvent.logInfoSpawning cmd]
      state := { s with proc := some newPid, pid := newPid } }
  | .permissionError =>
    { result := .error .permissionError
      events := [StartEvent.logInfoSpawning cmd,
                 StartEvent.logPermissionDenied (resolvedScript w) w.userName]
      state := s }
  | .fileNotFoundError =>
    { result := .error .fileNotFoundError
      events := [StartEvent.logInfoSpawning cmd]
      state := s }

/-! ## Derived notions used by the verification -/

/-- The state `s` with its clock set to `t`. -/
def atTime (s : SpawnerState) (t : Nat) : SpawnerState :=
  { s with time := t }

/-- Signal numbers of the `os.kill` calls in a trace, in order. -/
def sigsOf (evts : List Event) : List Nat :=
  evts.filterMap fun e =>
    match e with
    | .kill _ _ g => some g
    | .warn _ => none

/-- Termination-tier signals in a trace (everything except the signal-0
liveness probes, which deliver no signal). -/
def termSigs (evts : List Event) : List Nat :=
  (sigsOf evts).filter (fun g => g != 0)

/-- Warning log events in a trace. -/
def warnsOf (evts : List Event) : List Event :=
  evts.filter fun e =>
    match e with
    | .warn _ => true
    | .kill _ _ _ => false

/-- A trace that contains no termination-tier signal (only probes and
warnings). -/
def noTier (evts : List Event) : Prop :=
  ∀ g ∈ sigsOf evts, g = 0

/-- The process is observably alive at instant `t` through the liveness
primitive the state would use: the owned handle polls as running, or
(handle-less) the pid is nonzero and the signal-0 probe succeeds. -/
def aliveAt (w : World) (proc : Option Nat) (p t : Nat) : Prop :=
  match proc with
  | some _ => w.procPoll t = none
  | none => p ≠ 0 ∧ w.killRes p 0 t = KillOutcome.ok

/-- The process is observably dead at instant `t`: the owned handle
reports an exit status, or (handle-less) nothing is tracked or the
signal-0 probe reports ESRCH. -/
def deadAt (w : World) (proc : Option Nat) (p t : Nat) : Prop :=
  match proc with
  | some _ => ∃ v, w.procPoll t = some v
  | none => p = 0 ∨ w.killRes p 0 t = KillOutcome.esrch

/-- The process is observably dead at every instant from `t0` on. -/
def deadFrom (w : World) (proc : Option Nat) (p t0 : Nat) : Prop :=
  ∀ t, t0 ≤ t → deadAt w proc p t

/-- `Popen.poll` caches the exit status: once it reports an exit status it
reports the same one at every later instant. -/
def ProcStable (w : World) : Prop :=
  ∀ t t' v, t ≤ t' → w.procPoll t = some v → w.procPoll t' = some v

/-- The events a single `poll` call emits when the process is alive:
nothing with an owned handle, one signal-0 probe without one. -/
def probeEv (s : SpawnerState) : List Event :=
  match s.proc with
  | some _ => []
  | none => [Event.kill s.time s.pid 0]

/-! ## Trace bookkeeping lemmas -/

theorem sigsOf_append (a b : List Event) :
    sigsOf (a ++ b) = sigsOf a ++ sigsOf b :=
  List.filterMap_append _ _ _

theorem termSigs_append (a b : List Event) :
    termSigs (a ++ b) = termSigs a ++ termSigs b := by
  simp [termSigs, sigsOf_append, List.filter_append]

theorem warnsOf_append (a b : List Event) :
    warnsOf (a ++ b) = warnsOf a ++ warnsOf b := by
  simp [warnsOf, List.filter_append]

theorem noTier_append {a b : List Event} (ha : noTier a) (hb : noTier b) :
    noTier (a ++ b) := by
  intro g hg
  rw [sigsOf_append, List.mem_append] at hg
  rcases hg with hg | hg
  · exact ha g hg
  · exact hb g hg

theorem noTier_nil : noTier [] := by
  intro g hg
  simp [sigsOf] at hg

theorem noTier_probe (t p : Nat) : noTier [Event.kill t p 0] := by
  intro g hg
  simpa [sigsOf] using hg

theorem noTier_warn (p : Nat) : noTier [Event.warn p] := by
  intro g hg
  simp [sigsOf] at hg

theorem noTier_termSigs {a : List Event} (ha : noTier a) : termSigs a = [] := by
  rw [termSigs, List.filter_eq_nil_iff]
  intro g hg
  simp [ha g hg]

theorem mem_sigsOf_kill {t p g : Nat} {ev : List Event}
    (h : Event.kill t p g ∈ ev) : g ∈ sigsOf ev := by
  rw [sigsOf, List.mem_filterMap]
  exact ⟨Event.kill t p g, h, rfl⟩

theorem noTier_probeEv (s : SpawnerState) : noTier (probeEv s) := by
  unfold probeEv
  cases s.proc
  · exact noTier_probe _ _
  · exact noTier_nil

theorem warnsOf_probeEv (s : SpawnerState) : warnsOf (probeEv s) = [] := by
  unfold probeEv
  cases s.proc <;> simp [warnsOf]

/-! ## Basic facts about `poll` -/

/-- Exhaustive enumeration of the behaviours of a single `poll` call. -/
theorem poll_cases (w : World) (s : SpawnerState) :
    (∃ q v, s.proc = some q ∧ w.procPoll s.time = some v ∧
        poll w s = .ok (some v, [], clear_state s)) ∨
    (∃ q, s.proc = some q ∧ w.procPoll s.time = none ∧
        poll w s = .ok (none, [], s)) ∨
    (s.proc = none ∧ s.pid = 0 ∧
        poll w s = .ok (some 0, [], clear_state s)) ∨
    (s.proc = none ∧ s.pid ≠ 0 ∧ w.killRes s.pid 0 s.time = .ok ∧
        poll w s = .ok (none, [Event.kill s.time s.pid 0], s)) ∨
    (s.proc = none ∧ s.pid ≠ 0 ∧ w.killRes s.pid 0 s.time = .esrch ∧
        poll w s = .ok (some 0, [Event.kill s.time s.pid 0], clear_state s)) ∨
    (∃ e, s.proc = none ∧ s.pid ≠ 0 ∧ w.killRes s.pid 0 s.time = .err e ∧
        poll w s = .error e) := by
  cases hq : s.proc with
  | some q =>
    cases hv : w.procPoll s.time with
    | some v =>
      exact Or.inl ⟨q, v, rfl, rfl, by simp [poll, hq, hv]⟩
    | none =>
      exact Or.inr (Or.inl ⟨q, rfl, rfl, by simp [poll, hq, hv]⟩)
  | none =>
    by_cases hp : s.pid = 0
    · exact Or.inr (Or.inr (Or.inl ⟨rfl, hp, by simp [poll, hq, hp]⟩))
    · cases hk : w.killRes s.pid 0 s.time with
      | ok =>
        exact Or.inr (Or.inr (Or.inr (Or.inl
          ⟨rfl, hp, rfl, by simp [poll, _signal, hq, hp, hk]⟩)))
      | esrch =>
        exact Or.inr (Or.inr (Or.inr (Or.inr (Or.inl
          ⟨rfl, hp, rfl, by simp [poll, _signal, hq, hp, hk]⟩))))
      | err e =>
        exact Or.inr (Or.inr (Or.inr (Or.inr (Or.inr
          ⟨e, rfl, hp, rfl, by simp [poll, _signal, hq, hp, hk]⟩))))

theorem poll_noTier (w : World) (s : SpawnerState) (st : Option Int)
    (ev : List Event) (s' : SpawnerState) (h : poll w s = .ok (st, ev, s')) :
    noTier ev ∧ warnsOf ev = [] := by
  rcases poll_cases w s with ⟨q, v, hq, hv, hpoll⟩ | ⟨q, hq, hv, hpoll⟩ |
    ⟨hq, hp, hpoll⟩ | ⟨hq, hp, hk, hpoll⟩ | ⟨hq, hp, hk, hpoll⟩ |
    ⟨e, hq, hp, hk, hpoll⟩ <;>
  rw [hpoll] at h <;>
  simp only [Except.ok.injEq, Prod.mk.injEq, reduceCtorEq] at h
  all_goals (obtain ⟨-, he, -⟩ := h; subst he)
  case inl => exact ⟨noTier_nil, rfl⟩
  case inr.inl => exact ⟨noTier_nil, rfl⟩
  case inr.inr.inl => exact ⟨noTier_nil, rfl⟩
  case inr.inr.inr.inl => exact ⟨noTier_probe _ _, rfl⟩
  case inr.inr.inr.inr.inl => exact ⟨noTier_probe _ _, rfl⟩

theorem poll_state_cases (w : World) (s : SpawnerState) (st : Option Int)
    (ev : List Event) (s' : SpawnerState) (h : poll w s = .ok (st, ev, s')) :
    s' = s ∨ s' = clear_state s := by
  rcases poll_cases w s with ⟨q, v, hq, hv, hpoll⟩ | ⟨q, hq, hv, hpoll⟩ |
    ⟨hq, hp, hpoll⟩ | ⟨hq, hp, hk, hpoll⟩ | ⟨hq, hp, hk, hpoll⟩ |
    ⟨e, hq, hp, hk, hpoll⟩ <;>
  rw [hpoll] at h <;>
  simp only [Except.ok.injEq, Prod.mk.injEq, reduceCtorEq] at h
  all_goals obtain ⟨-, -, hs⟩ := h
  case inl => exact Or.inr hs.symm
  case inr.inl => exact Or.inl hs.symm
  case inr.inr.inl => exact Or.inr hs.symm
  case inr.inr.inr.inl => exact Or.inl hs.symm
  case inr.inr.inr.inr.inl => exact Or.inr hs.symm

theorem poll_none_state (w : World) (s : SpawnerState)
    (ev : List Event) (s' : SpawnerState) (h : poll w s = .ok (none, ev, s')) :
    s' = s ∧ ev = probeEv s := by
  rcases poll_cases w s with ⟨q, v, hq, hv, hpoll⟩ | ⟨q, hq, hv, hpoll⟩ |
    ⟨hq, hp, hpoll⟩ | ⟨hq, hp, hk, hpoll⟩ | ⟨hq, hp, hk, hpoll⟩ |
    ⟨e, hq, hp, hk, hpoll⟩ <;>
  rw [hpoll] at h <;>
  simp only [Except.ok.injEq, Prod.mk.injEq, reduceCtorEq] at h
  case inr.inl =>
    obtain ⟨-, he, hs⟩ := h
    exact ⟨hs.symm, by simp [probeEv, hq, he.symm]⟩
  case inr.inr.inr.inl =>
    obtain ⟨-, he, hs⟩ := h
    exact ⟨hs.symm, by simp [probeEv, hq, he.symm]⟩
  all_goals simp_all

theorem poll_none_alive (w : World) (s : SpawnerState)
    (ev : List Event) (s' : SpawnerState) (h : poll w s = .ok (none, ev, s')) :
    aliveAt w s.proc s.pid s.time := by
  rcases poll_cases w s with ⟨q, v, hq, hv, hpoll⟩ | ⟨q, hq, hv, hpoll⟩ |
    ⟨hq, hp, hpoll⟩ | ⟨hq, hp, hk, hpoll⟩ | ⟨hq, hp, hk, hpoll⟩ |
    ⟨e, hq, hp, hk, hpoll⟩ <;>
  rw [hpoll] at h <;>
  simp only [Except.ok.injEq, Prod.mk.injEq, reduceCtorEq] at h
  case inr.inl => rw [hq]; simp only [aliveAt]; exact hv
  case inr.inr.inr.inl => rw [hq]; simp only [aliveAt]; exact ⟨hp, hk⟩
  all_goals simp_all

theorem alive_poll_none (w : World) (s : SpawnerState)
    (ha : aliveAt w s.proc s.pid s.time) :
    poll w s = .ok (none, probeEv s, s) := by
  rcases poll_cases w s with ⟨q, v, hq, hv, hpoll⟩ | ⟨q, hq, hv, hpoll⟩ |
    ⟨hq, hp, hpoll⟩ | ⟨hq, hp, hk, hpoll⟩ | ⟨hq, hp, hk, hpoll⟩ |
    ⟨e, hq, hp, hk, hpoll⟩ <;>
  (rw [hq] at ha; simp only [aliveAt] at ha)
  case inl => rw [hv] at ha; exact absurd ha (by simp)
  case inr.inl => rw [hpoll]; simp [probeEv, hq]
  case inr.inr.inl => exact absurd hp ha.1
  case inr.inr.inr.inl => rw [hpoll]; simp [probeEv, hq]
  case inr.inr.inr.inr.inl => rw [hk] at ha; exact absurd ha.2 (by simp)
  case inr.inr.inr.inr.inr => rw [hk] at ha; exact absurd ha.2 (by simp)

theorem poll_some_state (w : World) (s : SpawnerState) (v : Int)
    (ev : List Event) (s' : SpawnerState)
    (h : poll w s = .ok (some v, ev, s')) : s' = clear_state s := by
  rcases poll_cases w s with ⟨q, v2, hq, hv, hpoll⟩ | ⟨q, hq, hv, hpoll⟩ |
    ⟨hq, hp, hpoll⟩ | ⟨hq, hp, hk, hpoll⟩ | ⟨hq, hp, hk, hpoll⟩ |
    ⟨e, hq, hp, hk, hpoll⟩ <;>
  rw [hpoll] at h <;>
  simp only [Except.ok.injEq, Prod.mk.injEq, reduceCtorEq] at h
  case inl => exact h.2.2.symm
  case inr.inr.inl => exact h.2.2.symm
  case inr.inr.inr.inr.inl => exact h.2.2.symm
  all_goals simp_all

theorem dead_poll_some (w : World) (s : SpawnerState)
    (hd : deadAt w s.proc s.pid s.time) :
    ∃ v ev, poll w s = .ok (some v, ev, clear_state s) := by
  rcases poll_cases w s with ⟨q, v, hq, hv, hpoll⟩ | ⟨q, hq, hv, hpoll⟩ |
    ⟨hq, hp, hpoll⟩ | ⟨hq, hp, hk, hpoll⟩ | ⟨hq, hp, hk, hpoll⟩ |
    ⟨e, hq, hp, hk, hpoll⟩ <;>
  (rw [hq] at hd; simp only [deadAt] at hd)
  case inl => exact ⟨v, [], hpoll⟩
  case inr.inl => rw [hv] at hd; exact absurd hd (by simp)
  case inr.inr.inl => exact ⟨0, [], hpoll⟩
  case inr.inr.inr.inl =>
    rcases hd with hd | hd
    · exact absurd hd hp
    · rw [hk] at hd; exact absurd hd (by simp)
  case inr.inr.inr.inr.inl => exact ⟨0, [Event.kill s.time s.pid 0], hpoll⟩
  case inr.inr.inr.inr.inr =>
    rcases hd with hd | hd
    · exact absurd hd hp
    · rw [hk] at hd; exact absurd hd (by simp)

theorem poll_some_again (w : World) (s : SpawnerState) (v : Int)
    (ev : List Event) (s' : SpawnerState)
    (h : poll w s = .ok (some v, ev, s')) :
    ∃ v2 ev2, poll w s' = .ok (some v2, ev2, clear_state s') := by
  have hs' := poll_some_state w s v ev s' h
  subst hs'
  rcases poll_cases w s with ⟨q, v2, hq, hv, hpoll⟩ | ⟨q, hq, hv, hpoll⟩ |
    ⟨hq, hp, hpoll⟩ | ⟨hq, hp, hk, hpoll⟩ | ⟨hq, hp, hk, hpoll⟩ |
    ⟨e, hq, hp, hk, hpoll⟩
  case inl =>
    exact ⟨v2, [], by simp [poll, clear_state, hq, hv]⟩
  case inr.inl => rw [hpoll] at h; exact absurd h (by simp)
  case inr.inr.inl =>
    exact ⟨0, [], by simp [poll, clear_state, hq]⟩
  case inr.inr.inr.inl => rw [hpoll] at h; exact absurd h (by simp)
  case inr.inr.inr.inr.inl =>
    exact ⟨0, [], by simp [poll, clear_state, hq]⟩
  case inr.inr.inr.inr.inr => rw [hpoll] at h; exact absurd h (by simp)

/-! ## Facts about `wait_for_death` and the escalation blocks -/

theorem atTime_congr (s : SpawnerState) {a b : Nat} (h : a = b) :
    atTime s a = atTime s b := by rw [h]

theorem atTime_tick (s : SpawnerState) (x : Nat) :
    atTime (tick s) x = atTime s x := rfl

theorem tick_time (s : SpawnerState) : (tick s).time = s.time + 1 := rfl

theorem _signal_inv (w : World) (s : SpawnerState) (g : Nat) (b : Bool)
    (sev : List Event) (h : _signal w s g = .ok (b, sev)) :
    sev = [Event.kill s.time s.pid g] ∧
    (w.killRes s.pid g s.time = .ok ∨ w.killRes s.pid g s.time = .esrch) := by
  unfold _signal at h
  cases hk : w.killRes s.pid g s.time <;> rw [hk] at h <;>
    simp only [] at h <;> simp_all

theorem wfd_noTier (w : World) :
    ∀ (n : Nat) (s : SpawnerState) (ev : List Event) (s' : SpawnerState),
    wait_for_death w s n = .ok (ev, s') → noTier ev ∧ warnsOf ev = [] := by
  intro n
  induction n with
  | zero =>
    intro s ev s' h
    rw [wait_for_death] at h
    simp only [Except.ok.injEq, Prod.mk.injEq] at h
    obtain ⟨he, -⟩ := h
    subst he
    exact ⟨noTier_nil, rfl⟩
  | succ n ih =>
    intro s ev s' h
    cases hps : poll w s with
    | error e => rw [wait_for_death, hps] at h; exact absurd h (by simp)
    | ok r =>
      obtain ⟨st, pev, ps⟩ := r
      cases st with
      | some v =>
        rw [wait_for_death, hps] at h
        simp only [Except.ok.injEq, Prod.mk.injEq] at h
        obtain ⟨he, -⟩ := h
        subst he
        exact poll_noTier w s _ _ _ hps
      | none =>
        rw [wait_for_death, hps] at h
        simp only [] at h
        cases hw : wait_for_death w (tick ps) n with
        | error e => rw [hw] at h; exact absurd h (by simp)
        | ok r2 =>
          obtain ⟨ev2, s2⟩ := r2
          rw [hw] at h
          simp only [Except.ok.injEq, Prod.mk.injEq] at h
          obtain ⟨he, -⟩ := h
          subst he
          obtain ⟨h1, h2⟩ := poll_noTier w s _ _ _ hps
          obtain ⟨h3, h4⟩ := ih (tick ps) ev2 s2 hw
          exact ⟨noTier_append h1 h3, by simp [warnsOf_append, h2, h4]⟩

theorem wfd_cases (w : World) :
    ∀ (n : Nat) (s : SpawnerState) (ev : List Event) (s' : SpawnerState),
    wait_for_death w s n = .ok (ev, s') →
    (s' = atTime s (s.time + n) ∧
      ∀ k, k < n → poll w (atTime s (s.time + k)) =
        .ok (none, probeEv (atTime s (s.time + k)), atTime s (s.time + k))) ∨
    (∃ v ev2, poll w s' = .ok (some v, ev2, clear_state s')) := by
  intro n
  induction n with
  | zero =>
    intro s ev s' h
    rw [wait_for_death] at h
    simp only [Except.ok.injEq, Prod.mk.injEq] at h
    obtain ⟨-, hs⟩ := h
    subst hs
    exact Or.inl ⟨rfl, fun k hk => absurd hk (by omega)⟩
  | succ n ih =>
    intro s ev s' h
    cases hps : poll w s with
    | error e => rw [wait_for_death, hps] at h; exact absurd h (by simp)
    | ok r =>
      obtain ⟨st, pev, ps⟩ := r
      cases st with
      | some v =>
        rw [wait_for_death, hps] at h
        simp only [Except.ok.injEq, Prod.mk.injEq] at h
        obtain ⟨-, hs⟩ := h
        subst hs
        exact Or.inr (poll_some_again w s v pev _ hps)
      | none =>
        obtain ⟨hs, hpev⟩ := poll_none_state w s pev ps hps
        have hs2 := hs.symm
        subst hs2
        subst hpev
        rw [wait_for_death, hps] at h
        simp only [] at h
        cases hw : wait_for_death w (tick s) n with
        | error e => rw [hw] at h; exact absurd h (by simp)
        | ok r2 =>
          obtain ⟨ev2, s2⟩ := r2
          rw [hw] at h
          simp only [Except.ok.injEq, Prod.mk.injEq] at h
          obtain ⟨-, hs2⟩ := h
          subst hs2
          rcases ih (tick s) ev2 s2 hw with ⟨hend, hpolls⟩ | hdead
          · refine Or.inl ⟨?_, ?_⟩
            · rw [hend, atTime_tick, tick_time]
              exact atTime_congr s (by omega)
            · intro k hk
              cases k with
              | zero => exact hps
              | succ k =>
                have hh := hpolls k (by omega)
                rw [atTime_tick, tick_time] at hh
                have e1 : s.time + 1 + k = s.time + (k + 1) := by omega
                rw [e1] at hh
                exact hh
          · exact Or.inr hdead

theorem tier_inv (w : World) (g T : Nat) (s : SpawnerState)
    (ev : List Event) (s' : SpawnerState) (dn : Bool)
    (h : tierAttempt w g T s = .ok (ev, s', dn)) :
    (dn = true ∧ s' = clear_state s ∧ noTier ev ∧ warnsOf ev = [] ∧
        ∃ v, poll w s = .ok (some v, ev, s')) ∨
    (dn = false ∧ ∃ wev,
        poll w s = .ok (none, probeEv s, s) ∧
        (w.killRes s.pid g s.time = .ok ∨ w.killRes s.pid g s.time = .esrch) ∧
        wait_for_death w s T = .ok (wev, s') ∧
        ev = probeEv s ++ [Event.kill s.time s.pid g] ++ wev) := by
  unfold tierAttempt at h
  cases hps : poll w s with
  | error e => rw [hps] at h; exact absurd h (by simp)
  | ok r =>
    obtain ⟨st, pev, ps⟩ := r
    cases st with
    | some v =>
      rw [hps] at h
      simp only [Except.ok.injEq, Prod.mk.injEq] at h
      obtain ⟨he, hs, hd⟩ := h
      have he2 := he.symm
      have hs2 := hs.symm
      have hd2 := hd.symm
      subst he2
      subst hs2
      subst hd2
      obtain ⟨h1, h2⟩ := poll_noTier w s _ _ _ hps
      exact Or.inl ⟨rfl, poll_some_state w s v _ _ hps, h1, h2, ⟨v, rfl⟩⟩
    | none =>
      obtain ⟨hs, hpev⟩ := poll_none_state w s pev ps hps
      have hs2 := hs.symm
      subst hs2
      subst hpev
      rw [hps] at h
      simp only [] at h
      cases hsig : _signal w s g with
      | error e => rw [hsig] at h; exact absurd h (by simp)
      | ok bp =>
        obtain ⟨b, sev⟩ := bp
        obtain ⟨hsev, hkr⟩ := _signal_inv w s g b sev hsig
        subst hsev
        rw [hsig] at h
        simp only [] at h
        cases hw : wait_for_death w s T with
        | error e => rw [hw] at h; exact absurd h (by simp)
        | ok r2 =>
          obtain ⟨wev, s2⟩ := r2
          rw [hw] at h
          simp only [Except.ok.injEq, Prod.mk.injEq] at h
          obtain ⟨he, hs2, hd⟩ := h
          subst he
          subst hs2
          subst hd
          exact Or.inr ⟨rfl, wev, rfl, hkr, rfl, rfl⟩

theorem alive_not_dead (w : World) (pr : Option Nat) (p t : Nat)
    (ha : aliveAt w pr p t) (hd : deadAt w pr p t) : False := by
  unfold aliveAt at ha
  unfold deadAt at hd
  cases pr <;> simp_all

/-! ## Path analysis of the `stop` escalation -/

theorem stop_false_eq (cfg : Config) (w : World) (s : SpawnerState) :
    stop cfg w s false =
      match tierAttempt w SIGINT cfg.INTERRUPT_TIMEOUT s with
      | .error e => .error e
      | .ok (ev1, s1, true) => .ok (ev1, s1)
      | .ok (ev1, s1, false) =>
        match stopTail cfg w s1 with
        | .error e => .error e
        | .ok (ev2, s2) => .ok (ev1 ++ ev2, s2) := rfl

theorem stop_true_eq (cfg : Config) (w : World) (s : SpawnerState) :
    stop cfg w s true = stopTail cfg w s := by
  cases h : stopTail cfg w s with
  | error e => simp [stop, h]
  | ok r =>
    obtain ⟨ev2, s2⟩ := r
    simp [stop, h]

/-- Exhaustive enumeration of the successful runs of the SIGTERM / SIGKILL
tail of `stop`: either a poll reported an exit before any signal was sent;
or SIGTERM was sent (at the instant of a liveness confirmation) and a poll
reported an exit before SIGKILL; or both SIGTERM and SIGKILL were sent,
SIGKILL exactly `TERM_TIMEOUT` after SIGTERM and only after a fresh
liveness confirmation, the whole SIGTERM wait having run its course. -/
theorem stopTail_paths (cfg : Config) (w : World) (s1 : SpawnerState)
    (ev : List Event) (sF : SpawnerState)
    (h : stopTail cfg w s1 = .ok (ev, sF)) :
    (noTier ev ∧ ∃ v, poll w s1 = .ok (some v, ev, sF)) ∨
    (∃ a b, ev = a ++ [Event.kill s1.time s1.pid SIGTERM] ++ b ∧
        noTier a ∧ noTier b ∧ aliveAt w s1.proc s1.pid s1.time) ∨
    (∃ a b c, ev = a ++ [Event.kill s1.time s1.pid SIGTERM] ++ b ++
          [Event.kill (s1.time + cfg.TERM_TIMEOUT) s1.pid SIGKILL] ++ c ∧
        noTier a ∧ noTier b ∧ noTier c ∧
        aliveAt w s1.proc s1.pid s1.time ∧
        aliveAt w s1.proc s1.pid (s1.time + cfg.TERM_TIMEOUT) ∧
        (∀ k, k < cfg.TERM_TIMEOUT → poll w (atTime s1 (s1.time + k)) =
          .ok (none, probeEv (atTime s1 (s1.time + k)),
               atTime s1 (s1.time + k)))) := by
  unfold stopTail at h
  cases hta : tierAttempt w SIGTERM cfg.TERM_TIMEOUT s1 with
  | error e => rw [hta] at h; exact absurd h (by simp)
  | ok r =>
    obtain ⟨ev2, s2, dn⟩ := r
    cases dn with
    | true =>
      rw [hta] at h
      simp only [Except.ok.injEq, Prod.mk.injEq] at h
      obtain ⟨he, hsf⟩ := h
      subst he
      subst hsf
      rcases tier_inv w SIGTERM cfg.TERM_TIMEOUT s1 ev2 s2 true hta with
        ⟨-, -, hnt, -, v, hpv⟩ | ⟨hfalse, -⟩
      · exact Or.inl ⟨hnt, v, hpv⟩
      · exact absurd hfalse (by simp)
    | false =>
      rw [hta] at h
      simp only [] at h
      rcases tier_inv w SIGTERM cfg.TERM_TIMEOUT s1 ev2 s2 false hta with
        ⟨hfalse, -⟩ | ⟨-, wev, hp1, -, hw1, hev2⟩
      · exact absurd hfalse.symm (by simp)
      · have halive1 : aliveAt w s1.proc s1.pid s1.time :=
          poll_none_alive w s1 _ _ hp1
        obtain ⟨hwnt, -⟩ := wfd_noTier w cfg.TERM_TIMEOUT s1 wev s2 hw1
        cases htk : tierAttempt w SIGKILL cfg.KILL_TIMEOUT s2 with
        | error e => rw [htk] at h; exact absurd h (by simp)
        | ok r2 =>
          obtain ⟨ev3, s3, dn3⟩ := r2
          cases dn3 with
          | true =>
            rw [htk] at h
            simp only [Except.ok.injEq, Prod.mk.injEq] at h
            obtain ⟨he, -⟩ := h
            rcases tier_inv w SIGKILL cfg.KILL_TIMEOUT s2 ev3 s3 true htk with
              ⟨-, -, hnt3, -, -⟩ | ⟨hfalse, -⟩
            · refine Or.inr (Or.inl ⟨probeEv s1, wev ++ ev3, ?_,
                noTier_probeEv s1, noTier_append hwnt hnt3, halive1⟩)
              rw [← he, hev2]
              simp [List.append_assoc]
            · exact absurd hfalse (by simp)
          | false =>
            rw [htk] at h
            simp only [] at h
            rcases tier_inv w SIGKILL cfg.KILL_TIMEOUT s2 ev3 s3 false htk with
              ⟨hfalse, -⟩ | ⟨-, wev3, hp2, -, hw3, hev3⟩
            · exact absurd hfalse.symm (by simp)
            · rcases wfd_cases w cfg.TERM_TIMEOUT s1 wev s2 hw1 with
                ⟨hs2e, hpolls⟩ | ⟨v, ev2x, hdead⟩
              · subst hs2e
                have halive2 : aliveAt w s1.proc s1.pid
                    (s1.time + cfg.TERM_TIMEOUT) := poll_none_alive w _ _ _ hp2
                obtain ⟨hw3nt, -⟩ := wfd_noTier w cfg.KILL_TIMEOUT _ wev3 s3 hw3
                cases hfp : poll w s3 with
                | error e => rw [hfp] at h; exact absurd h (by simp)
                | ok r4 =>
                  obtain ⟨st4, ev4, s4⟩ := r4
                  obtain ⟨hnt4, -⟩ := poll_noTier w s3 st4 ev4 s4 hfp
                  cases st4 with
                  | some v4 =>
                    rw [hfp] at h
                    simp only [Except.ok.injEq, Prod.mk.injEq] at h
                    obtain ⟨he, -⟩ := h
                    refine Or.inr (Or.inr ⟨probeEv s1,
                      wev ++ probeEv (atTime s1 (s1.time + cfg.TERM_TIMEOUT)),
                      wev3 ++ ev4, ?_, noTier_probeEv s1,
                      noTier_append hwnt (noTier_probeEv _),
                      noTier_append hw3nt hnt4, halive1, halive2, hpolls⟩)
                    rw [← he, hev2, hev3]
                    simp [atTime, List.append_assoc]
                  | none =>
                    rw [hfp] at h
                    simp only [Except.ok.injEq, Prod.mk.injEq] at h
                    obtain ⟨he, -⟩ := h
                    refine Or.inr (Or.inr ⟨probeEv s1,
                      wev ++ probeEv (atTime s1 (s1.time + cfg.TERM_TIMEOUT)),
                      wev3 ++ ev4 ++ [Event.warn s4.pid], ?_, noTier_probeEv s1,
                      noTier_append hwnt (noTier_probeEv _),
                      noTier_append (noTier_append hw3nt hnt4) (noTier_warn _),
                      halive1, halive2, hpolls⟩)
                    rw [← he, hev2, hev3]
                    simp [atTime, List.append_assoc]
              · rw [hp2] at hdead
                exact absurd hdead (by simp)

/-- Exhaustive enumeration of the successful runs of `stop(now=False)`.
Each tier signal appears with the instant at which it was sent; a tier
signal is sent only at an instant at which a fresh poll confirmed the
process alive, SIGTERM exactly `INTERRUPT_TIMEOUT` after SIGINT and
SIGKILL exactly `TERM_TIMEOUT` after SIGTERM, and every poll during the
interrupt wait (when it ran its full course) reported the process
alive. -/
theorem stop_paths (cfg : Config) (w : World) (s : SpawnerState)
    (ev : List Event) (sF : SpawnerState)
    (h : stop cfg w s false = .ok (ev, sF)) :
    (noTier ev) ∨
    (∃ a b, ev = a ++ [Event.kill s.time s.pid SIGINT] ++ b ∧
        noTier a ∧ noTier b ∧ aliveAt w s.proc s.pid s.time) ∨
    (∃ a b c, ev = a ++ [Event.kill s.time s.pid SIGINT] ++ b ++
          [Event.kill (s.time + cfg.INTERRUPT_TIMEOUT) s.pid SIGTERM] ++ c ∧
        noTier a ∧ noTier b ∧ noTier c ∧
        aliveAt w s.proc s.pid s.time ∧
        aliveAt w s.proc s.pid (s.time + cfg.INTERRUPT_TIMEOUT) ∧
        (∀ k, k < cfg.INTERRUPT_TIMEOUT → poll w (atTime s (s.time + k)) =
          .ok (none, probeEv (atTime s (s.time + k)), atTime s (s.time + k)))) ∨
    (∃ a b c d, ev = a ++ [Event.kill s.time s.pid SIGINT] ++ b ++
          [Event.kill (s.time + cfg.INTERRUPT_TIMEOUT) s.pid SIGTERM] ++ c ++
          [Event.kill (s.time + cfg.INTERRUPT_TIMEOUT + cfg.TERM_TIMEOUT)
            s.pid SIGKILL] ++ d ∧
        noTier a ∧ noTier b ∧ noTier c ∧ noTier d ∧
        aliveAt w s.proc s.pid s.time ∧
        aliveAt w s.proc s.pid (s.time + cfg.INTERRUPT_TIMEOUT) ∧
        aliveAt w s.proc s.pid
          (s.time + cfg.INTERRUPT_TIMEOUT + cfg.TERM_TIMEOUT) ∧
        (∀ k, k < cfg.INTERRUPT_TIMEOUT → poll w (atTime s (s.time + k)) =
          .ok (none, probeEv (atTime s (s.time + k)),
               atTime s (s.time + k)))) := by
  rw [stop_false_eq] at h
  cases hta : tierAttempt w SIGINT cfg.INTERRUPT_TIMEOUT s with
  | error e => rw [hta] at h; exact absurd h (by simp)
  | ok r =>
    obtain ⟨ev1, s1, dn⟩ := r
    cases dn with
    | true =>
      rw [hta] at h
      simp only [Except.ok.injEq, Prod.mk.injEq] at h
      obtain ⟨he, -⟩ := h
      subst he
      rcases tier_inv w SIGINT cfg.INTERRUPT_TIMEOUT s ev1 s1 true hta with
        ⟨-, -, hnt, -, -⟩ | ⟨hfalse, -⟩
      · exact Or.inl hnt
      · exact absurd hfalse (by simp)
    | false =>
      rw [hta] at h
      simp only [] at h
      rcases tier_inv w SIGINT cfg.INTERRUPT_TIMEOUT s ev1 s1 false hta with
        ⟨hfalse, -⟩ | ⟨-, wev1, hp1, -, hw1, hev1⟩
      · exact absurd hfalse.symm (by simp)
      · have halive0 : aliveAt w s.proc s.pid s.time :=
          poll_none_alive w s _ _ hp1
        obtain ⟨hw1nt, -⟩ := wfd_noTier w cfg.INTERRUPT_TIMEOUT s wev1 s1 hw1
        cases hst : stopTail cfg w s1 with
        | error e => rw [hst] at h; exact absurd h (by simp)
        | ok rt =>
          obtain ⟨tev, st2⟩ := rt
          rw [hst] at h
          simp only [Except.ok.injEq, Prod.mk.injEq] at h
          obtain ⟨he, -⟩ := h
          rcases wfd_cases w cfg.INTERRUPT_TIMEOUT s wev1 s1 hw1 with
            ⟨hs1e, hpolls1⟩ | ⟨v, evx, hdead⟩
          · subst hs1e
            rcases stopTail_paths cfg w _ tev st2 hst with ⟨hnt2, -⟩ |
              ⟨a, b, htev, hna, hnb, halive1⟩ |
              ⟨a, b, c, htev, hna, hnb, hnc, halive1, halive2, -⟩
            · refine Or.inr (Or.inl ⟨probeEv s, wev1 ++ tev, ?_,
                noTier_probeEv s, noTier_append hw1nt hnt2, halive0⟩)
              rw [← he, hev1]
              simp [List.append_assoc]
            · have halive1' : aliveAt w s.proc s.pid
                  (s.time + cfg.INTERRUPT_TIMEOUT) := halive1
              refine Or.inr (Or.inr (Or.inl ⟨probeEv s, wev1 ++ a, b, ?_,
                noTier_probeEv s, noTier_append hw1nt hna, hnb,
                halive0, halive1', hpolls1⟩))
              rw [← he, hev1, htev]
              simp [atTime, List.append_assoc]
            · have halive1' : aliveAt w s.proc s.pid
                  (s.time + cfg.INTERRUPT_TIMEOUT) := halive1
              have halive2' : aliveAt w s.proc s.pid
                  (s.time + cfg.INTERRUPT_TIMEOUT + cfg.TERM_TIMEOUT) := halive2
              refine Or.inr (Or.inr (Or.inr ⟨probeEv s, wev1 ++ a, b, c, ?_,
                noTier_probeEv s, noTier_append hw1nt hna, hnb, hnc,
                halive0, halive1', halive2', hpolls1⟩))
              rw [← he, hev1, htev]
              simp [atTime, List.append_assoc]
          · rcases stopTail_paths cfg w s1 tev st2 hst with ⟨hnt2, -⟩ |
              ⟨a, b, htev, hna, hnb, halive1⟩ |
              ⟨a, b, c, htev, hna, hnb, hnc, halive1, halive2, -⟩
            · refine Or.inr (Or.inl ⟨probeEv s, wev1 ++ tev, ?_,
                noTier_probeEv s, noTier_append hw1nt hnt2, halive0⟩)
              rw [← he, hev1]
              simp [List.append_assoc]
            · rw [alive_poll_none w s1 halive1] at hdead
              exact absurd hdead (by simp)
            · rw [alive_poll_none w s1 halive1] at hdead
              exact absurd hdead (by simp)

theorem noTier_no_mem {a : List Event} (hn : noTier a) {g : Nat}
    (hg : g ≠ 0) : g ∉ sigsOf a :=
  fun hm => hg (hn g hm)

theorem not_mem_sigs_three (g : Nat) (a b : List Event) (t p g' : Nat)
    (hna : noTier a) (hnb : noTier b) (hg : g ≠ 0) (hg' : g ≠ g') :
    g ∉ sigsOf (a ++ [Event.kill t p g'] ++ b) := by
  intro hm
  rw [sigsOf_append, sigsOf_append] at hm
  simp only [sigsOf, List.filterMap_cons, List.filterMap_nil,
    List.mem_append, List.mem_singleton] at hm
  rcases hm with (hm | hm) | hm
  · exact hg (hna g hm)
  · exact hg' hm
  · exact hg (hnb g hm)

theorem not_mem_sigs_five (g : Nat) (a b c : List Event)
    (t1 p1 g1 t2 p2 g2 : Nat)
    (hna : noTier a) (hnb : noTier b) (hnc : noTier c)
    (hg : g ≠ 0) (h1 : g ≠ g1) (h2 : g ≠ g2) :
    g ∉ sigsOf (a ++ [Event.kill t1 p1 g1] ++ b ++
      [Event.kill t2 p2 g2] ++ c) := by
  intro hm
  rw [sigsOf_append, sigsOf_append, sigsOf_append, sigsOf_append] at hm
  simp only [sigsOf, List.filterMap_cons, List.filterMap_nil,
    List.mem_append, List.mem_singleton] at hm
  rcases hm with (((hm | hm) | hm) | hm) | hm
  · exact hg (hna g hm)
  · exact h1 hm
  · exact hg (hnb g hm)
  · exact h2 hm
  · exact hg (hnc g hm)

/-- The all-alive, all-deliverable world: the handle always reports
running and every kill call succeeds. -/
def wAlive : World :=
  { procPoll := fun _ => none, killRes := fun _ _ _ => .ok }

/-- A spawner owning a handle for pid 7 at instant 0. -/
def sHandle : SpawnerState :=
  { proc := some 7, pid := 7, port := 0, time := 0 }

/-- Claim C1: stop() follows a fixed, strictly escalating tier order
(interrupt, then terminate, then kill); it never sends a later-tier
signal unless the preceding tier timeout has fully elapsed (SIGTERM is
sent exactly `INTERRUPT_TIMEOUT` after SIGINT, SIGKILL exactly
`TERM_TIMEOUT` after SIGTERM) and a liveness re-check at that boundary
confirmed the process still alive; if the process exits during the
interrupt wait, neither SIGTERM nor SIGKILL is ever sent. -/
theorem stop_tier_escalation (cfg : Config) (w : World) (s : SpawnerState)
    (ev : List Event) (sF : SpawnerState)
    (h : stop cfg w s false = .ok (ev, sF)) :
    (SIGTERM ∈ sigsOf ev →
        Event.kill s.time s.pid SIGINT ∈ ev ∧
        Event.kill (s.time + cfg.INTERRUPT_TIMEOUT) s.pid SIGTERM ∈ ev ∧
        aliveAt w s.proc s.pid (s.time + cfg.INTERRUPT_TIMEOUT)) ∧
    (SIGKILL ∈ sigsOf ev →
        SIGTERM ∈ sigsOf ev ∧
        Event.kill (s.time + cfg.INTERRUPT_TIMEOUT + cfg.TERM_TIMEOUT)
          s.pid SIGKILL ∈ ev ∧
        aliveAt w s.proc s.pid
          (s.time + cfg.INTERRUPT_TIMEOUT + cfg.TERM_TIMEOUT)) ∧
    ((∃ k, k < cfg.INTERRUPT_TIMEOUT ∧ deadAt w s.proc s.pid (s.time + k)) →
        SIGTERM ∉ sigsOf ev ∧ SIGKILL ∉ sigsOf ev) := by
  rcases stop_paths cfg w s ev sF h with hnt |
    ⟨a, b, hev, hna, hnb, halive0⟩ |
    ⟨a, b, c, hev, hna, hnb, hnc, halive0, halive1, hpolls⟩ |
    ⟨a, b, c, d, hev, hna, hnb, hnc, hnd, halive0, halive1, halive2, hpolls⟩
  · exact ⟨fun h15 => absurd (hnt _ h15) (by decide),
      fun h9 => absurd (hnt _ h9) (by decide),
      fun _ => ⟨noTier_no_mem hnt (by decide), noTier_no_mem hnt (by decide)⟩⟩
  · refine ⟨?_, ?_, ?_⟩
    · intro h15
      rw [hev] at h15
      exact absurd h15
        (not_mem_sigs_three _ a b _ _ _ hna hnb (by decide) (by decide))
    · intro h9
      rw [hev] at h9
      exact absurd h9
        (not_mem_sigs_three _ a b _ _ _ hna hnb (by decide) (by decide))
    · intro _
      rw [hev]
      exact ⟨not_mem_sigs_three _ a b _ _ _ hna hnb (by decide) (by decide),
        not_mem_sigs_three _ a b _ _ _ hna hnb (by decide) (by decide)⟩
  · refine ⟨?_, ?_, ?_⟩
    · intro _
      refine ⟨?_, ?_, halive1⟩ <;> (rw [hev]; simp)
    · intro h9
      rw [hev] at h9
      exact absurd h9 (not_mem_sigs_five _ a b c _ _ _ _ _ _ hna hnb hnc
        (by decide) (by decide) (by decide))
    · rintro ⟨k, hk, hdead⟩
      have hal := poll_none_alive w (atTime s (s.time + k)) _ _ (hpolls k hk)
      exact (alive_not_dead w s.proc s.pid (s.time + k) hal hdead).elim
  · refine ⟨?_, ?_, ?_⟩
    · intro _
      refine ⟨?_, ?_, halive1⟩ <;> (rw [hev]; simp)
    · intro _
      refine ⟨@mem_sigsOf_kill (s.time + cfg.INTERRUPT_TIMEOUT) s.pid
        SIGTERM ev ?_, ?_, halive2⟩ <;> (rw [hev]; simp)
    · rintro ⟨k, hk, hdead⟩
      have hal := poll_none_alive w (atTime s (s.time + k)) _ _ (hpolls k hk)
      exact (alive_not_dead w s.proc s.pid (s.time + k) hal hdead).elim

/-- Witness for C1: the default configuration against the all-alive world,
starting from a handle-owning spawner; the run sends SIGINT at 0,
SIGTERM at 10 and SIGKILL at 15, and the theorem instantiates. -/
theorem stop_tier_escalation_witness :
    (SIGTERM ∈ sigsOf [Event.kill 0 7 SIGINT, Event.kill 10 7 SIGTERM,
        Event.kill 15 7 SIGKILL, Event.warn 7] →
      Event.kill 0 7 SIGINT ∈ [Event.kill 0 7 SIGINT, Event.kill 10 7 SIGTERM,
        Event.kill 15 7 SIGKILL, Event.warn 7] ∧
      Event.kill 10 7 SIGTERM ∈ [Event.kill 0 7 SIGINT,
        Event.kill 10 7 SIGTERM, Event.kill 15 7 SIGKILL, Event.warn 7] ∧
      aliveAt wAlive (some 7) 7 10) ∧
    (SIGKILL ∈ sigsOf [Event.kill 0 7 SIGINT, Event.kill 10 7 SIGTERM,
        Event.kill 15 7 SIGKILL, Event.warn 7] →
      SIGTERM ∈ sigsOf [Event.kill 0 7 SIGINT, Event.kill 10 7 SIGTERM,
        Event.kill 15 7 SIGKILL, Event.warn 7] ∧
      Event.kill 15 7 SIGKILL ∈ [Event.kill 0 7 SIGINT,
        Event.kill 10 7 SIGTERM, Event.kill 15 7 SIGKILL, Event.warn 7] ∧
      aliveAt wAlive (some 7) 7 15) ∧
    ((∃ k, k < 10 ∧ deadAt wAlive (some 7) 7 (0 + k)) →
      SIGTERM ∉ sigsOf [Event.kill 0 7 SIGINT, Event.kill 10 7 SIGTERM,
        Event.kill 15 7 SIGKILL, Event.warn 7] ∧
      SIGKILL ∉ sigsOf [Event.kill 0 7 SIGINT, Event.kill 10 7 SIGTERM,
        Event.kill 15 7 SIGKILL, Event.warn 7]) :=
  stop_tier_escalation defaultConfig wAlive sHandle
    [Event.kill 0 7 SIGINT, Event.kill 10 7 SIGTERM,
      Event.kill 15 7 SIGKILL, Event.warn 7]
    { proc := some 7, pid := 7, port := 0, time := 20 } rfl

/-- Claim C8: stop(now=true) skips the graceful probe and interrupt tier
entirely: no SIGINT is ever sent by the call, and when the initial
liveness check confirms the process still alive, SIGTERM is the first
termination-tier signal sent. -/
theorem stop_now_skips_interrupt (cfg : Config) (w : World) (s : SpawnerState)
    (ev : List Event) (sF : SpawnerState)
    (h : stop cfg w s true = .ok (ev, sF)) :
    SIGINT ∉ sigsOf ev ∧
    (aliveAt w s.proc s.pid s.time →
      ∃ rest, termSigs ev = SIGTERM :: rest ∧
        Event.kill s.time s.pid SIGTERM ∈ ev) := by
  rw [stop_true_eq] at h
  rcases stopTail_paths cfg w s ev sF h with ⟨hnt, v, hpv⟩ |
    ⟨a, b, hev, hna, hnb, halive⟩ |
    ⟨a, b, c, hev, hna, hnb, hnc, halive, halive2, hpolls⟩
  · refine ⟨noTier_no_mem hnt (by decide), ?_⟩
    intro ha
    rw [alive_poll_none w s ha] at hpv
    exact absurd hpv (by simp)
  · refine ⟨?_, ?_⟩
    · rw [hev]
      exact not_mem_sigs_three _ a b _ _ _ hna hnb (by decide) (by decide)
    · intro _
      refine ⟨termSigs b, ?_, ?_⟩
      · rw [hev, termSigs_append, termSigs_append, noTier_termSigs hna]
        simp [termSigs, sigsOf, SIGTERM]
      · rw [hev]; simp
  · refine ⟨?_, ?_⟩
    · rw [hev]
      exact not_mem_sigs_five _ a b c _ _ _ _ _ _ hna hnb hnc
        (by decide) (by decide) (by decide)
    · intro _
      refine ⟨termSigs b ++ SIGKILL :: termSigs c, ?_, ?_⟩
      · rw [hev, termSigs_append, termSigs_append, termSigs_append,
          termSigs_append, noTier_termSigs hna]
        simp [termSigs, sigsOf, SIGTERM, SIGKILL]
      · rw [hev]; simp

/-- Witness for C8: the default configuration against the all-alive world,
starting from a handle-owning spawner; stop(now=true) sends SIGTERM at 0
and SIGKILL at 5 and never SIGINT. -/
theorem stop_now_skips_interrupt_witness :
    SIGINT ∉ sigsOf [Event.kill 0 7 SIGTERM, Event.kill 5 7 SIGKILL,
      Event.warn 7] ∧
    (aliveAt wAlive (some 7) 7 0 →
      ∃ rest, termSigs [Event.kill 0 7 SIGTERM, Event.kill 5 7 SIGKILL,
          Event.warn 7] = SIGTERM :: rest ∧
        Event.kill 0 7 SIGTERM ∈ [Event.kill 0 7 SIGTERM,
          Event.kill 5 7 SIGKILL, Event.warn 7]) :=
  stop_now_skips_interrupt defaultConfig wAlive sHandle
    [Event.kill 0 7 SIGTERM, Event.kill 5 7 SIGKILL, Event.warn 7]
    { proc := some 7, pid := 7, port := 0, time := 10 } rfl

theorem termSigs_kill (t p g : Nat) (hg : (g != 0) = true) :
    termSigs [Event.kill t p g] = [g] := by
  simp [termSigs, sigsOf, List.filter, hg]

theorem warnsOf_kill (t p g : Nat) : warnsOf [Event.kill t p g] = [] := rfl

theorem warnsOf_warn (p : Nat) :
    warnsOf [Event.warn p] = [Event.warn p] := rfl

theorem termSigs_warn (p : Nat) : termSigs [Event.warn p] = [] := rfl

/-- When the process stays alive forever, `wait_for_death` runs out its
whole fuel, emitting only probes, and ends `n` ticks later. -/
theorem wfd_alive (w : World) :
    ∀ (n : Nat) (s : SpawnerState),
    (∀ t, aliveAt w s.proc s.pid t) →
    ∃ ev, wait_for_death w s n = .ok (ev, atTime s (s.time + n)) ∧
      noTier ev ∧ warnsOf ev = [] := by
  intro n
  induction n with
  | zero =>
    intro s halive
    exact ⟨[], rfl, noTier_nil, rfl⟩
  | succ n ih =>
    intro s halive
    have hp : poll w s = .ok (none, probeEv s, s) :=
      alive_poll_none w s (halive s.time)
    obtain ⟨ev2, hw, hnt2, hwn2⟩ := ih (tick s) (fun t => halive t)
    refine ⟨probeEv s ++ ev2, ?_, noTier_append (noTier_probeEv s) hnt2,
      by simp [warnsOf_append, warnsOf_probeEv, hwn2]⟩
    rw [wait_for_death, hp]
    simp only []
    rw [hw]
    simp only []
    have e1 : s.time + 1 + n = s.time + (n + 1) := by omega
    rw [atTime_tick, tick_time, e1]

/-- When the process stays alive forever and the tier signal is
deliverable, an escalation block confirms liveness, sends its signal at
the current instant, waits out its full timeout and hands over. -/
theorem tier_alive (w : World) (g T : Nat) (s : SpawnerState)
    (halive : ∀ t, aliveAt w s.proc s.pid t)
    (hk : w.killRes s.pid g s.time = .ok) :
    ∃ wev, tierAttempt w g T s =
        .ok (probeEv s ++ [Event.kill s.time s.pid g] ++ wev,
             atTime s (s.time + T), false) ∧
      noTier wev ∧ warnsOf wev = [] := by
  have hp : poll w s = .ok (none, probeEv s, s) :=
    alive_poll_none w s (halive s.time)
  obtain ⟨wev, hw, hnt, hwn⟩ := wfd_alive w T s halive
  refine ⟨wev, ?_, hnt, hwn⟩
  unfold tierAttempt
  rw [hp]
  simp only []
  rw [show _signal w s g = .ok (true, [Event.kill s.time s.pid g]) from by
    unfold _signal; rw [hk]]
  simp only []
  rw [hw]

/-- Claim C9: when all three tiers fail to kill the process within their
timeouts, stop() terminates after the three waits (it neither loops nor
retries: each tier signal is sent exactly once), raises no exception
(the call returns normally), and surfaces the outcome only as the single
warning-level report, the process being still alive and still recorded
under its pid (the zombie outcome). -/
theorem stop_exhaustion (cfg : Config) (w : World) (s : SpawnerState)
    (halive : ∀ t, aliveAt w s.proc s.pid t)
    (hsig : ∀ g t, g ≠ 0 → w.killRes s.pid g t = .ok) :
    ∃ ev, stop cfg w s false =
        .ok (ev, atTime s (s.time + cfg.INTERRUPT_TIMEOUT +
          cfg.TERM_TIMEOUT + cfg.KILL_TIMEOUT)) ∧
      termSigs ev = [SIGINT, SIGTERM, SIGKILL] ∧
      warnsOf ev = [Event.warn s.pid] := by
  set s1 := atTime s (s.time + cfg.INTERRUPT_TIMEOUT) with hs1
  set s2 := atTime s1 (s1.time + cfg.TERM_TIMEOUT) with hs2
  set s3 := atTime s2 (s2.time + cfg.KILL_TIMEOUT) with hs3
  obtain ⟨wev1, hI, hnt1, hwn1⟩ :=
    tier_alive w SIGINT cfg.INTERRUPT_TIMEOUT s halive
      (hsig SIGINT s.time (by decide))
  obtain ⟨wev2, hT, hnt2, hwn2⟩ :=
    tier_alive w SIGTERM cfg.TERM_TIMEOUT s1 (fun t => halive t)
      (hsig SIGTERM s1.time (by decide))
  obtain ⟨wev3, hK, hnt3, hwn3⟩ :=
    tier_alive w SIGKILL cfg.KILL_TIMEOUT s2 (fun t => halive t)
      (hsig SIGKILL s2.time (by decide))
  have hfinal : poll w s3 = .ok (none, probeEv s3, s3) :=
    alive_poll_none w s3 (halive s3.time)
  have hstop : stop cfg w s false = .ok (
      (probeEv s ++ [Event.kill s.time s.pid SIGINT] ++ wev1) ++
      ((probeEv s1 ++ [Event.kill s1.time s1.pid SIGTERM] ++ wev2) ++
        (probeEv s2 ++ [Event.kill s2.time s2.pid SIGKILL] ++ wev3) ++
        probeEv s3 ++ [Event.warn s3.pid]), s3) := by
    rw [stop_false_eq, hI]
    simp only []
    unfold stopTail
    rw [hT]
    simp only []
    rw [hK]
    simp only []
    rw [hfinal]
  have hs3eq : s3 = atTime s (s.time + cfg.INTERRUPT_TIMEOUT +
      cfg.TERM_TIMEOUT + cfg.KILL_TIMEOUT) := rfl
  rw [hs3eq] at hstop
  refine ⟨_, hstop, ?_, ?_⟩
  · simp only [termSigs_append, noTier_termSigs (noTier_probeEv _),
      noTier_termSigs hnt1, noTier_termSigs hnt2, noTier_termSigs hnt3,
      termSigs_kill s.time s.pid SIGINT (by decide),
      termSigs_kill s1.time s1.pid SIGTERM (by decide),
      termSigs_kill s2.time s2.pid SIGKILL (by decide),
      termSigs_warn]
    simp
  · simp only [warnsOf_append, warnsOf_probeEv, warnsOf_kill, hwn1, hwn2,
      hwn3, warnsOf_warn]
    simp only [List.nil_append, List.append_nil]
    rfl

/-- Witness for C9: with the default configuration, the all-alive world
and a handle-owning spawner, stop() returns normally at instant 20 having
sent each tier signal exactly once and logged one warning. -/
theorem stop_exhaustion_witness :
    ∃ ev, stop defaultConfig wAlive sHandle false =
        .ok (ev, atTime sHandle 20) ∧
      termSigs ev = [SIGINT, SIGTERM, SIGKILL] ∧
      warnsOf ev = [Event.warn 7] :=
  stop_exhaustion defaultConfig wAlive sHandle (fun _ => rfl)
    (fun _ _ _ => rfl)

/-- The vanish-race world: a handle-less process with pid 7 that is seen
alive by the signal-0 probe at instant 0, vanishes during the SIGINT
send (ESRCH), and is gone for every probe from instant 1 on. -/
def wVanish : World :=
  { procPoll := fun _ => some 0,
    killRes := fun _ g t => if g = 0 ∧ t = 0 then .ok else .esrch }

/-- A handle-less spawner tracking pid 7 (recovered from persisted
state) at instant 0. -/
def sPid : SpawnerState :=
  { proc := none, pid := 7, port := 0, time := 0 }

/-- Claim C4: a signal send that fails with ESRCH (process already
vanished) is success-equivalent: `_signal` returns normally (no
exception) after making the kill call; once the process is observably
gone, no further tier signal is ever sent at or after that instant
(stop proceeds to liveness confirmation instead of escalating); and any
other signal-send failure (errno `e`) makes that stop() call fail with
exactly that error. -/
theorem signal_failure_handling (cfg : Config) (w : World) (s : SpawnerState) :
    (∀ g, w.killRes s.pid g s.time = .esrch →
        _signal w s g = .ok (false, [Event.kill s.time s.pid g])) ∧
    (∀ t0 ev sF, deadFrom w s.proc s.pid t0 →
        stop cfg w s false = .ok (ev, sF) →
        ∀ t g, Event.kill t s.pid g ∈ ev → g ≠ 0 → t < t0) ∧
    (∀ e, aliveAt w s.proc s.pid s.time →
        w.killRes s.pid SIGINT s.time = .err e →
        stop cfg w s false = .error e) := by
  refine ⟨?_, ?_, ?_⟩
  · intro g hk
    unfold _signal
    rw [hk]
  · intro t0 ev sF hdead h t g hmem hg
    have hstep : ∀ tt, aliveAt w s.proc s.pid tt → tt < t0 := by
      intro tt ha
      by_contra hcon
      push_neg at hcon
      exact alive_not_dead w s.proc s.pid tt ha (hdead tt hcon)
    rcases stop_paths cfg w s ev sF h with hnt |
      ⟨a, b, hev, hna, hnb, halive0⟩ |
      ⟨a, b, c, hev, hna, hnb, hnc, halive0, halive1, hpolls⟩ |
      ⟨a, b, c, d, hev, hna, hnb, hnc, hnd, halive0, halive1, halive2, hpolls⟩
    · exact absurd (hnt g (mem_sigsOf_kill hmem)) hg
    · rw [hev] at hmem
      simp only [List.mem_append, List.mem_singleton, Event.kill.injEq] at hmem
      rcases hmem with (hmem | ⟨ht, -, -⟩) | hmem
      · exact absurd (hna g (mem_sigsOf_kill hmem)) hg
      · exact ht ▸ hstep s.time halive0
      · exact absurd (hnb g (mem_sigsOf_kill hmem)) hg
    · rw [hev] at hmem
      simp only [List.mem_append, List.mem_singleton, Event.kill.injEq] at hmem
      rcases hmem with (((hmem | ⟨ht, -, -⟩) | hmem) | ⟨ht, -, -⟩) | hmem
      · exact absurd (hna g (mem_sigsOf_kill hmem)) hg
      · exact ht ▸ hstep s.time halive0
      · exact absurd (hnb g (mem_sigsOf_kill hmem)) hg
      · exact ht ▸ hstep (s.time + cfg.INTERRUPT_TIMEOUT) halive1
      · exact absurd (hnc g (mem_sigsOf_kill hmem)) hg
    · rw [hev] at hmem
      simp only [List.mem_append, List.mem_singleton, Event.kill.injEq] at hmem
      rcases hmem with (((((hmem | ⟨ht, -, -⟩) | hmem) | ⟨ht, -, -⟩) | hmem) |
        ⟨ht, -, -⟩) | hmem
      · exact absurd (hna g (mem_sigsOf_kill hmem)) hg
      · exact ht ▸ hstep s.time halive0
      · exact absurd (hnb g (mem_sigsOf_kill hmem)) hg
      · exact ht ▸ hstep (s.time + cfg.INTERRUPT_TIMEOUT) halive1
      · exact absurd (hnc g (mem_sigsOf_kill hmem)) hg
      · exact ht ▸ hstep
          (s.time + cfg.INTERRUPT_TIMEOUT + cfg.TERM_TIMEOUT) halive2
      · exact absurd (hnd g (mem_sigsOf_kill hmem)) hg
  · intro e ha hk
    have hsg : _signal w s SIGINT = .error e := by
      unfold _signal
      rw [hk]
    have hta : tierAttempt w SIGINT cfg.INTERRUPT_TIMEOUT s = .error e := by
      unfold tierAttempt
      rw [alive_poll_none w s ha]
      simp only []
      rw [hsg]
    rw [stop_false_eq, hta]

/-- Witness for C4: the vanish-race world against the handle-less
pid-7 spawner. -/
theorem signal_failure_handling_witness :
    (∀ g, wVanish.killRes 7 g 0 = .esrch →
        _signal wVanish sPid g = .ok (false, [Event.kill 0 7 g])) ∧
    (∀ t0 ev sF, deadFrom wVanish none 7 t0 →
        stop defaultConfig wVanish sPid false = .ok (ev, sF) →
        ∀ t g, Event.kill t 7 g ∈ ev → g ≠ 0 → t < t0) ∧
    (∀ e, aliveAt wVanish none 7 0 →
        wVanish.killRes 7 SIGINT 0 = .err e →
        stop defaultConfig wVanish sPid false = .error e) :=
  signal_failure_handling defaultConfig wVanish sPid

/-- Claim C3: on a controller with no in-memory handle and a nonzero
recovered pid, poll() probes liveness by sending signal 0 to that pid:
delivery success returns null (still running, state untouched); ESRCH
clears the state and reports exited (with the placeholder status 0, no
recoverable exit code); any other delivery failure propagates as an
error and is not interpreted as exited. -/
theorem poll_recovered_pid (w : World) (s : SpawnerState)
    (hproc : s.proc = none) (hpid : s.pid ≠ 0) :
    (w.killRes s.pid 0 s.time = .ok →
        poll w s = .ok (none, [Event.kill s.time s.pid 0], s)) ∧
    (w.killRes s.pid 0 s.time = .esrch →
        poll w s = .ok (some 0, [Event.kill s.time s.pid 0], clear_state s) ∧
        (clear_state s).pid = 0) ∧
    (∀ e, w.killRes s.pid 0 s.time = .err e → poll w s = .error e) := by
  refine ⟨?_, ?_, ?_⟩
  · intro hk
    simp [poll, _signal, hproc, hpid, hk]
  · intro hk
    exact ⟨by simp [poll, _signal, hproc, hpid, hk], rfl⟩
  · intro e hk
    simp [poll, _signal, hproc, hpid, hk]

/-- The gone world: every kill call reports ESRCH. -/
def wGone : World :=
  { procPoll := fun _ => some 0, killRes := fun _ _ _ => .esrch }

/-- Witness for C3: the probe on pid 7 in the all-ESRCH world clears the
state and reports exited; in the all-alive world it returns null. -/
theorem poll_recovered_pid_witness :
    ((wGone.killRes 7 0 0 = .ok →
        poll wGone sPid = .ok (none, [Event.kill 0 7 0], sPid)) ∧
      (wGone.killRes 7 0 0 = .esrch →
        poll wGone sPid =
          .ok (some 0, [Event.kill 0 7 0], clear_state sPid) ∧
        (clear_state sPid).pid = 0) ∧
      (∀ e, wGone.killRes 7 0 0 = .err e → poll wGone sPid = .error e)) ∧
    sPid.proc = none ∧ sPid.pid ≠ 0 :=
  ⟨poll_recovered_pid wGone sPid rfl (by decide), rfl, by decide⟩

/-- Claim C7: once poll() has returned an exited status, the stored pid
is zero and every subsequent poll() (at any later instant, assuming the
cached `Popen.poll` status is stable) returns an exited status again and
leaves the pid at zero. -/
theorem poll_idempotent_after_exit (w : World) (s : SpawnerState)
    (v : Int) (ev : List Event) (s' : SpawnerState)
    (hstable : ProcStable w) (h : poll w s = .ok (some v, ev, s')) :
    s'.pid = 0 ∧
    ∀ t, s.time ≤ t → ∃ v2 ev2,
      poll w (atTime s' t) = .ok (some v2, ev2, clear_state (atTime s' t)) ∧
      (clear_state (atTime s' t)).pid = 0 := by
  have hs' := poll_some_state w s v ev s' h
  subst hs'
  refine ⟨rfl, ?_⟩
  intro t ht
  rcases poll_cases w s with ⟨q, v2, hq, hv, hpoll⟩ | ⟨q, hq, hv, hpoll⟩ |
    ⟨hq, hp, hpoll⟩ | ⟨hq, hp, hk, hpoll⟩ | ⟨hq, hp, hk, hpoll⟩ |
    ⟨e, hq, hp, hk, hpoll⟩
  · refine ⟨v2, [], ?_, rfl⟩
    have hv2 : w.procPoll t = some v2 := hstable s.time t v2 ht hv
    simp [poll, clear_state, atTime, hq, hv2]
  · rw [hpoll] at h
    exact absurd h (by simp)
  · exact ⟨0, [], by simp [poll, clear_state, atTime, hq], rfl⟩
  · rw [hpoll] at h
    exact absurd h (by simp)
  · exact ⟨0, [], by simp [poll, clear_state, atTime, hq], rfl⟩
  · rw [hpoll] at h
    exact absurd h (by simp)

/-- The world whose handle reports the cached exit status 3 forever. -/
def wExit3 : World :=
  { procPoll := fun _ => some 3, killRes := fun _ _ _ => .esrch }

/-- Witness for C7: in the world whose handle constantly reports exit
status 3, polling the handle-owning spawner returns 3, zeroes the pid,
and every later poll reports an exit again. -/
theorem poll_idempotent_after_exit_witness :
    ProcStable wExit3 ∧
    ((clear_state sHandle).pid = 0 ∧
      ∀ t, (0 : Nat) ≤ t → ∃ v2 ev2,
        poll wExit3 (atTime (clear_state sHandle) t) =
          .ok (some v2, ev2, clear_state (atTime (clear_state sHandle) t)) ∧
        (clear_state (atTime (clear_state sHandle) t)).pid = 0) :=
  ⟨fun _ _ _ _ hv => hv,
    poll_idempotent_after_exit wExit3 sHandle 3 [] (clear_state sHandle)
      (fun _ _ _ _ hv => hv) rfl⟩

/-- Claim C10: whenever a handle-less controller reports exited — the
pid is zero (nothing tracked) or the signal-0 probe finds the process
gone — poll() returns exactly the integer status 0, and a handle-owning
controller whose process genuinely exited with status 0 returns that
same value. -/
theorem poll_handleless_exit_is_zero (w : World) (s : SpawnerState)
    (hproc : s.proc = none) :
    (s.pid = 0 → poll w s = .ok (some 0, [], clear_state s)) ∧
    (s.pid ≠ 0 → w.killRes s.pid 0 s.time = .esrch →
        poll w s = .ok (some 0, [Event.kill s.time s.pid 0], clear_state s)) ∧
    (∀ (w2 : World) (s2 : SpawnerState) (q : Nat), s2.proc = some q →
        w2.procPoll s2.time = some 0 →
        poll w2 s2 = .ok (some 0, [], clear_state s2)) := by
  refine ⟨?_, ?_, ?_⟩
  · intro hp
    simp [poll, hproc, hp]
  · intro hp hk
    simp [poll, _signal, hproc, hp, hk]
  · intro w2 s2 q hq hv
    simp [poll, hq, hv]

/-- Witness for C10: the probe-gone case on pid 7 and the genuine
status-0 handle exit both return `some 0`. -/
theorem poll_handleless_exit_is_zero_witness :
    ((sPid.pid = 0 → poll wGone sPid = .ok (some 0, [], clear_state sPid)) ∧
      (sPid.pid ≠ 0 → wGone.killRes 7 0 0 = .esrch →
        poll wGone sPid =
          .ok (some 0, [Event.kill 0 7 0], clear_state sPid)) ∧
      (∀ (w2 : World) (s2 : SpawnerState) (q : Nat), s2.proc = some q →
        w2.procPoll s2.time = some 0 →
        poll w2 s2 = .ok (some 0, [], clear_state s2))) ∧
    sPid.proc = none :=
  ⟨poll_handleless_exit_is_zero wGone sPid rfl, rfl⟩

/-- Claim C6: loadState(getState()) is a no-op — feeding a controller its
own persisted state back leaves it unchanged; the persisted blob carries
the pid key exactly when pid is nonzero, with that pid as value; loading
the blob into a fresh controller reproduces the pid and owns no handle;
and in the handle-less persisted-state regime the recreated controller
has identical poll() behaviour (same status, same resulting pid). -/
theorem state_roundtrip (w : World) (s : SpawnerState) :
    load_state s (get_state s) = s ∧
    (get_state s = none ↔ s.pid = 0) ∧
    (∀ p, get_state s = some p → p = s.pid ∧ p ≠ 0) ∧
    (load_state (fresh s.time) (get_state s)).pid = s.pid ∧
    (load_state (fresh s.time) (get_state s)).proc = none ∧
    (s.proc = none →
      (poll w (load_state (fresh s.time) (get_state s))).map
          (fun r => (r.1, r.2.2.pid)) =
        (poll w s).map (fun r => (r.1, r.2.2.pid))) := by
  by_cases hp : s.pid = 0
  · refine ⟨by simp [load_state, get_state, hp], by simp [get_state, hp],
      by simp [get_state, hp], by simp [load_state, get_state, fresh, hp],
      by simp [load_state, get_state, fresh, hp], ?_⟩
    intro hq
    simp [poll, load_state, get_state, fresh, hp, hq, clear_state, Except.map]
  · refine ⟨by simp [load_state, get_state, hp], by simp [get_state, hp],
      by simp [get_state, hp], by simp [load_state, get_state, fresh, hp],
      by simp [load_state, get_state, fresh, hp], ?_⟩
    intro hq
    cases hk : w.killRes s.pid 0 s.time with
    | ok =>
      simp [poll, _signal, load_state, get_state, fresh, hp, hq, hk,
        clear_state, Except.map]
    | esrch =>
      simp [poll, _signal, load_state, get_state, fresh, hp, hq, hk,
        clear_state, Except.map]
    | err e =>
      simp [poll, _signal, load_state, get_state, fresh, hp, hq, hk,
        clear_state, Except.map]

/-- Witness for C6: the pid-7 handle-less spawner in the all-ESRCH
world round-trips its state and poll behaviour. -/
theorem state_roundtrip_witness :
    load_state sPid (get_state sPid) = sPid ∧
    (get_state sPid = none ↔ sPid.pid = 0) ∧
    (∀ p, get_state sPid = some p → p = sPid.pid ∧ p ≠ 0) ∧
    (load_state (fresh 0) (get_state sPid)).pid = sPid.pid ∧
    (load_state (fresh 0) (get_state sPid)).proc = none ∧
    (sPid.proc = none →
      (poll wGone (load_state (fresh 0) (get_state sPid))).map
          (fun r => (r.1, r.2.2.pid)) =
        (poll wGone sPid).map (fun r => (r.1, r.2.2.pid))) :=
  state_roundtrip wGone sPid

/-- Whether a start log event is the resolved-path permission
diagnostic. -/
def StartEvent.isPermDiag : StartEvent → Bool
  | .logPermissionDenied _ _ => true
  | .logInfoSpawning _ => false

/-- A start environment whose executable does not exist: `Popen` raises
`FileNotFoundError`, which `start` does not catch. -/
def swMissing : StartWorld :=
  { randomPort := 41000, popen := fun _ => .fileNotFoundError,
    which := fun _ => none, userName := "alice", ip := "",
    cmd := ["nosuchprogram"], args := [] }

/-- Counterexample to C2 as stated: when the executable is missing the
launch fails and no handle is recorded, but no resolved-path diagnostic
naming the binary and the principal is produced — `start` only catches
`PermissionError`, and `FileNotFoundError` propagates undiagnosed. -/
theorem start_missing_no_diagnostic :
    (start swMissing (fresh 0)).result = .error .fileNotFoundError ∧
    (∀ e ∈ (start swMissing (fresh 0)).events, e.isPermDiag = false) ∧
    (start swMissing (fresh 0)).state.pid = 0 ∧
    (start swMissing (fresh 0)).state.proc = none := by
  refine ⟨rfl, ?_, rfl, rfl⟩
  intro e he
  simp [start, swMissing] at he
  rw [he]
  rfl

/-- Claim C2 (amended): for a launch attempt from an empty controller
whose process creation fails: a PermissionError makes start() resolve
the command through the which-style lookup, log the diagnostic naming
the resolved binary and the requesting principal, and re-raise the
original failure; a missing executable (FileNotFoundError) is re-raised
without the resolved-path diagnostic; in both cases no handle is
recorded and the pid stays 0. -/
theorem start_failure_diagnostics (w : StartWorld) (s : SpawnerState)
    (hpid : s.pid = 0) (hproc : s.proc = none) :
    (w.popen (w.cmd ++ w.args) = .permissionError →
      (start w s).result = .error .permissionError ∧
      StartEvent.logPermissionDenied (resolvedScript w) w.userName ∈
        (start w s).events ∧
      (start w s).state.pid = 0 ∧ (start w s).state.proc = none) ∧
    (w.popen (w.cmd ++ w.args) = .fileNotFoundError →
      (start w s).result = .error .fileNotFoundError ∧
      (∀ e ∈ (start w s).events, e.isPermDiag = false) ∧
      (start w s).state.pid = 0 ∧ (start w s).state.proc = none) := by
  constructor
  · intro hk
    simp [start, hk, hpid, hproc]
  · intro hk
    refine ⟨by simp [start, hk], ?_, by simp [start, hk, hpid],
      by simp [start, hk, hproc]⟩
    intro e he
    simp [start, hk] at he
    rw [he]
    rfl

/-- A start environment that hits a PermissionError, with a which-style
lookup that resolves names under a bin directory. -/
def swPerm : StartWorld :=
  { randomPort := 41001, popen := fun _ => .permissionError,
    which := fun p => some (String.append "/usr/bin/" p),
    userName := "alice", ip := "",
    cmd := ["restricted"], args := [] }

/-- Witness for C2 (amended): the PermissionError environment produces
the diagnostic naming the resolved binary and the user, re-raises, and
records nothing. -/
theorem start_failure_diagnostics_witness :
    ((swPerm.popen (swPerm.cmd ++ swPerm.args) = .permissionError →
      (start swPerm (fresh 0)).result = .error .permissionError ∧
      StartEvent.logPermissionDenied (resolvedScript swPerm)
        swPerm.userName ∈ (start swPerm (fresh 0)).events ∧
      (start swPerm (fresh 0)).state.pid = 0 ∧
      (start swPerm (fresh 0)).state.proc = none) ∧
    (swPerm.popen (swPerm.cmd ++ swPerm.args) = .fileNotFoundError →
      (start swPerm (fresh 0)).result = .error .fileNotFoundError ∧
      (∀ e ∈ (start swPerm (fresh 0)).events, e.isPermDiag = false) ∧
      (start swPerm (fresh 0)).state.pid = 0 ∧
      (start swPerm (fresh 0)).state.proc = none)) ∧
    (fresh 0).pid = 0 ∧ (fresh 0).proc = none :=
  ⟨start_failure_diagnostics swPerm (fresh 0) rfl rfl, rfl, rfl⟩

/-! ## Reachable controller states (claim C5) -/

/-- States reachable through the public operations: construction,
recreation from persisted state (loadState applied to a fresh
controller), start, poll, stop, clearState (getState is pure and
changes nothing), and the passage of time between calls. -/
inductive Reachable (cfg : Config) (w : World) : SpawnerState → Prop
  | init (t : Nat) : Reachable cfg w (fresh t)
  | recreate (t : Nat) (blob : Option Nat) :
      Reachable cfg w (load_state (fresh t) blob)
  | start_step (sw : StartWorld) {s : SpawnerState} :
      Reachable cfg w s → Reachable cfg w (start sw s).state
  | poll_step {s : SpawnerState} (st : Option Int) (ev : List Event)
      (s' : SpawnerState) : Reachable cfg w s →
      poll w s = .ok (st, ev, s') → Reachable cfg w s'
  | stop_step (now : Bool) {s : SpawnerState} (ev : List Event)
      (s' : SpawnerState) : Reachable cfg w s →
      stop cfg w s now = .ok (ev, s') → Reachable cfg w s'
  | clear_step {s : SpawnerState} : Reachable cfg w s →
      Reachable cfg w (clear_state s)
  | wait_step {s : SpawnerState} (t : Nat) : Reachable cfg w s →
      Reachable cfg w (atTime s t)

/-- The (amended) handle/pid coherence invariant: a present handle
matches the stored pid unless the pid has been cleared to 0. -/
def HandlePid (s : SpawnerState) : Prop :=
  ∀ p, s.proc = some p → s.pid = p ∨ s.pid = 0

theorem handlePid_clear {s : SpawnerState} (_ : HandlePid s) :
    HandlePid (clear_state s) :=
  fun _ _ => Or.inr rfl

theorem handlePid_atTime {s : SpawnerState} (t : Nat) (h : HandlePid s) :
    HandlePid (atTime s t) :=
  fun p hp => h p hp

theorem handlePid_poll (w : World) (s : SpawnerState) (st : Option Int)
    (ev : List Event) (s' : SpawnerState)
    (hp : poll w s = .ok (st, ev, s')) (h : HandlePid s) : HandlePid s' := by
  rcases poll_state_cases w s st ev s' hp with h1 | h1
  · subst h1; exact h
  · subst h1; exact handlePid_clear h

theorem handlePid_wfd (w : World) :
    ∀ (n : Nat) (s : SpawnerState) (ev : List Event) (s' : SpawnerState),
    wait_for_death w s n = .ok (ev, s') → HandlePid s → HandlePid s' := by
  intro n
  induction n with
  | zero =>
    intro s ev s' h hh
    rw [wait_for_death] at h
    simp only [Except.ok.injEq, Prod.mk.injEq] at h
    obtain ⟨-, hs⟩ := h
    subst hs
    exact hh
  | succ n ih =>
    intro s ev s' h hh
    cases hps : poll w s with
    | error e => rw [wait_for_death, hps] at h; exact absurd h (by simp)
    | ok r =>
      obtain ⟨st, pev, ps⟩ := r
      cases st with
      | some v =>
        rw [wait_for_death, hps] at h
        simp only [Except.ok.injEq, Prod.mk.injEq] at h
        obtain ⟨-, hs⟩ := h
        subst hs
        exact handlePid_poll w s _ _ _ hps hh
      | none =>
        rw [wait_for_death, hps] at h
        simp only [] at h
        cases hw : wait_for_death w (tick ps) n with
        | error e => rw [hw] at h; exact absurd h (by simp)
        | ok r2 =>
          obtain ⟨ev2, s2⟩ := r2
          rw [hw] at h
          simp only [Except.ok.injEq, Prod.mk.injEq] at h
          obtain ⟨-, hs⟩ := h
          subst hs
          exact ih (tick ps) ev2 s2 hw
            (handlePid_atTime _ (handlePid_poll w s _ _ _ hps hh))

theorem handlePid_tier (w : World) (g T : Nat) (s : SpawnerState)
    (ev : List Event) (s' : SpawnerState) (dn : Bool)
    (h : tierAttempt w g T s = .ok (ev, s', dn)) (hh : HandlePid s) :
    HandlePid s' := by
  rcases tier_inv w g T s ev s' dn h with ⟨-, hs, -⟩ | ⟨-, wev, -, -, hw, -⟩
  · subst hs; exact handlePid_clear hh
  · exact handlePid_wfd w T s wev s' hw hh

theorem handlePid_stopTail (cfg : Config) (w : World) (s : SpawnerState)
    (ev : List Event) (s' : SpawnerState)
    (h : stopTail cfg w s = .ok (ev, s')) (hh : HandlePid s) :
    HandlePid s' := by
  unfold stopTail at h
  cases hta : tierAttempt w SIGTERM cfg.TERM_TIMEOUT s with
  | error e => rw [hta] at h; exact absurd h (by simp)
  | ok r =>
    obtain ⟨ev2, s2, dn⟩ := r
    have hh2 := handlePid_tier w SIGTERM cfg.TERM_TIMEOUT s ev2 s2 dn hta hh
    cases dn with
    | true =>
      rw [hta] at h
      simp only [Except.ok.injEq, Prod.mk.injEq] at h
      obtain ⟨-, hs⟩ := h
      subst hs
      exact hh2
    | false =>
      rw [hta] at h
      simp only [] at h
      cases htk : tierAttempt w SIGKILL cfg.KILL_TIMEOUT s2 with
      | error e => rw [htk] at h; exact absurd h (by simp)
      | ok r2 =>
        obtain ⟨ev3, s3, dn3⟩ := r2
        have hh3 := handlePid_tier w SIGKILL cfg.KILL_TIMEOUT s2 ev3 s3 dn3
          htk hh2
        cases dn3 with
        | true =>
          rw [htk] at h
          simp only [Except.ok.injEq, Prod.mk.injEq] at h
          obtain ⟨-, hs⟩ := h
          subst hs
          exact hh3
        | false =>
          rw [htk] at h
          simp only [] at h
          cases hfp : poll w s3 with
          | error e => rw [hfp] at h; exact absurd h (by simp)
          | ok r4 =>
            obtain ⟨st4, ev4, s4⟩ := r4
            have hh4 := handlePid_poll w s3 st4 ev4 s4 hfp hh3
            cases st4 with
            | some v4 =>
              rw [hfp] at h
              simp only [Except.ok.injEq, Prod.mk.injEq] at h
              obtain ⟨-, hs⟩ := h
              subst hs
              exact hh4
            | none =>
              rw [hfp] at h
              simp only [Except.ok.injEq, Prod.mk.injEq] at h
              obtain ⟨-, hs⟩ := h
              subst hs
              exact hh4

theorem handlePid_stop (cfg : Config) (w : World) (s : SpawnerState)
    (now : Bool) (ev : List Event) (s' : SpawnerState)
    (h : stop cfg w s now = .ok (ev, s')) (hh : HandlePid s) :
    HandlePid s' := by
  cases now with
  | true =>
    rw [stop_true_eq] at h
    exact handlePid_stopTail cfg w s ev s' h hh
  | false =>
    rw [stop_false_eq] at h
    cases hta : tierAttempt w SIGINT cfg.INTERRUPT_TIMEOUT s with
    | error e => rw [hta] at h; exact absurd h (by simp)
    | ok r =>
      obtain ⟨ev1, s1, dn⟩ := r
      have hh1 := handlePid_tier w SIGINT cfg.INTERRUPT_TIMEOUT s ev1 s1 dn
        hta hh
      cases dn with
      | true =>
        rw [hta] at h
        simp only [Except.ok.injEq, Prod.mk.injEq] at h
        obtain ⟨-, hs⟩ := h
        subst hs
        exact hh1
      | false =>
        rw [hta] at h
        simp only [] at h
        cases hst : stopTail cfg w s1 with
        | error e => rw [hst] at h; exact absurd h (by simp)
        | ok rt =>
          obtain ⟨tev, st2⟩ := rt
          rw [hst] at h
          simp only [Except.ok.injEq, Prod.mk.injEq] at h
          obtain ⟨-, hs⟩ := h
          subst hs
          exact handlePid_stopTail cfg w s1 tev st2 hst hh1

theorem reachable_handlePid (cfg : Config) (w : World) (s : SpawnerState)
    (h : Reachable cfg w s) : HandlePid s := by
  induction h with
  | init t => intro p hp; exact absurd hp (by simp [fresh])
  | recreate t blob =>
    intro p hp
    cases blob with
    | some q => exact absurd hp (by simp [load_state, fresh])
    | none => exact absurd hp (by simp [load_state, fresh])
  | start_step sw hr ih =>
    rename_i s0
    cases hpo : sw.popen (sw.cmd ++ sw.args) with
    | ok newPid =>
      intro p hp
      simp only [start, hpo] at hp ⊢
      exact Or.inl (Option.some.inj hp)
    | permissionError =>
      intro p hp
      simp only [start, hpo] at hp ⊢
      exact ih p hp
    | fileNotFoundError =>
      intro p hp
      simp only [start, hpo] at hp ⊢
      exact ih p hp
  | poll_step st ev s' hr hp ih => exact handlePid_poll w _ st ev s' hp ih
  | stop_step now ev s' hr hs ih => exact handlePid_stop cfg w _ now ev s' hs ih
  | clear_step hr ih => exact handlePid_clear ih
  | wait_step t hr ih => exact handlePid_atTime t ih

/-- A start environment that successfully spawns a child with pid 7. -/
def swOk : StartWorld :=
  { randomPort := 42000, popen := fun _ => .ok 7, which := fun _ => none,
    userName := "alice", ip := "", cmd := ["jupyterhub-singleuser"],
    args := [] }

/-- The stale-handle state: start a child (pid 7), then call
clearState() — the pid is zeroed but the handle object remains. -/
def sStale : SpawnerState := clear_state (start swOk (fresh 0)).state

/-- Counterexample to C5 as stated: after start followed by the public
clearState() operation, the controller is in a reachable state whose
in-memory handle is present (for pid 7) while the stored pid is 0, not
7 — `clear_state` zeroes `pid` but never drops `proc`. -/
theorem handle_pid_mismatch_reachable :
    Reachable defaultConfig wAlive sStale ∧
    sStale.proc = some 7 ∧ sStale.pid ≠ 7 :=
  ⟨Reachable.clear_step (Reachable.start_step swOk (Reachable.init 0)),
    rfl, by decide⟩

/-- Claim C5 (amended): in every state reachable through the public
operations, if the in-memory handle is present then the stored pid
equals the handle pid or is 0 (the pid is zeroed by clearState and by
poll/stop observing the exit, while the stale handle object stays in
place); and a controller recreated from persisted state owns no
in-memory handle, only a pid. -/
theorem reachable_handle_pid_invariant (cfg : Config) (w : World)
    (s : SpawnerState) (h : Reachable cfg w s) :
    (∀ p, s.proc = some p → s.pid = p ∨ s.pid = 0) ∧
    (∀ t blob, (load_state (fresh t) blob).proc = none) := by
  refine ⟨reachable_handlePid cfg w s h, ?_⟩
  intro t blob
  cases blob <;> rfl

/-- Witness for C5 (amended): the stale-handle state satisfies the
amended invariant through its pid-cleared disjunct. -/
theorem reachable_handle_pid_invariant_witness :
    (∀ p, sStale.proc = some p → sStale.pid = p ∨ sStale.pid = 0) ∧
    (∀ t blob, (load_state (fresh t) blob).proc = none) :=
  reachable_handle_pid_invariant defaultConfig wAlive sStale
    (Reachable.clear_step (Reachable.start_step swOk (Reachable.init 0)))

end RootlessSpawner
